import Mathlib

/-!
# Verification of the CodingCompetitionBowl judging engine

A shallow embedding of the grading engine of the repository
(`src/utils/grader.py`, `src/judge/cpp_runner.py`, `src/judge/python_runner.py`)
together with proofs about the spec's claims.

Modelling conventions:

* Python strings are Lean `String`s; Python string primitives (`strip`,
  `lower`, `split`, `splitlines`, `int(...)`, slicing, indexing) are
  re-implemented character-by-character below so that all definitions reduce
  inside the kernel.  `str.splitlines` is modelled for the line endings
  `"\n"`, `"\r"` and `"\r\n"`; Python's rarer unicode line separators and
  `int()`'s underscore grouping / non-ASCII digits are not modelled (no
  claim depends on them).
* Subprocess executions are nondeterministic from the engine's point of
  view; each one is modelled by a `ProcOutcome` oracle value (either a wall
  clock timeout, or completion with an exit code, stdout and stderr).  The
  candidate source text influences only what those subprocesses do, which
  the oracles capture, so the functions below do not inspect the code text.
* Python code that may raise is modelled in the `Option` monad: `none`
  means "an exception escaped this function".
-/

set_option autoImplicit false

namespace CCB

/-! ## Character-level models of Python string primitives -/

/-- The ASCII whitespace characters stripped by Python's `str.strip()` /
split on by `str.split()`. -/
def isPySpace (c : Char) : Bool :=
  c = ' ' || c = '\t' || c = '\n' || c = '\x0d' || c = '\x0b' || c = '\x0c'

/-- `str.strip()` on a character list. -/
def pyStripChars (l : List Char) : List Char :=
  ((l.dropWhile isPySpace).reverse.dropWhile isPySpace).reverse

/-- Python `str.strip()`. -/
def pyStrip (s : String) : String := String.mk (pyStripChars s.data)

/-- Python `str.lower()` (ASCII case folding). -/
def pyLower (s : String) : String := String.mk (s.data.map Char.toLower)

/-- Python `str.startswith(pat)`. -/
def pyStartsWith (s pat : String) : Bool := pat.data.isPrefixOf s.data

/-- `str.splitlines()` worker: splits at `\n`, `\r` and `\r\n`; a trailing
line terminator does not produce a final empty line. -/
def splitLinesGo : List Char → List Char → List (List Char)
  | [], [] => []
  | [], acc => [acc.reverse]
  | '\x0d' :: '\n' :: rest, acc => acc.reverse :: splitLinesGo rest []
  | '\n' :: rest, acc => acc.reverse :: splitLinesGo rest []
  | '\x0d' :: rest, acc => acc.reverse :: splitLinesGo rest []
  | c :: rest, acc => splitLinesGo rest (c :: acc)

/-- Python `str.splitlines()`. -/
def pySplitlines (s : String) : List String :=
  (splitLinesGo s.data []).map String.mk

/-- `str.split()` (no argument) worker: split on whitespace runs, dropping
empty tokens. -/
def splitWsGo : List Char → List Char → List (List Char)
  | [], [] => []
  | [], acc => [acc.reverse]
  | c :: rest, acc =>
    if isPySpace c then
      if acc = [] then splitWsGo rest [] else acc.reverse :: splitWsGo rest []
    else splitWsGo rest (c :: acc)

/-- Python `str.split()` with no separator argument. -/
def pySplitWs (s : String) : List String :=
  (splitWsGo s.data []).map String.mk

/-- `str.split(sep)` worker for a one-character separator (every separator
split on by the source — `"|"`, `","`, `"("` — is one character). -/
def splitCharGo (sep : Char) : List Char → List (List Char)
  | [] => [[]]
  | c :: rest =>
    let r := splitCharGo sep rest
    if c = sep then [] :: r
    else
      match r with
      | [] => [[c]]
      | t :: ts => (c :: t) :: ts

/-- Python `str.split(sep)` for a one-character separator. -/
def pySplitChar (s : String) (sep : Char) : List String :=
  (splitCharGo sep s.data).map String.mk

/-- Everything after the first occurrence of the pattern, or `none` when
the pattern does not occur: combines Python's `pat in s` test with
`s.split(pat, 1)[1]`. -/
def afterSubChars? (pat : List Char) : List Char → Option (List Char)
  | [] => if pat = [] then some [] else none
  | c :: rest =>
    if pat.isPrefixOf (c :: rest) then some ((c :: rest).drop pat.length)
    else afterSubChars? pat rest

/-- String wrapper for `afterSubChars?`. -/
def pyAfterSub? (s pat : String) : Option String :=
  (afterSubChars? pat.data s.data).map String.mk

/-- `", ".join(...)`-style joining. -/
def joinWith (sep : String) : List String → String
  | [] => ""
  | [s] => s
  | s :: rest => s ++ sep ++ joinWith sep rest

/-- `s.split(sep)[0]`: everything before the first occurrence of the
one-character separator (the whole string when it is absent). -/
def strBeforeFirst (s : String) (sep : Char) : String :=
  match pySplitChar s sep with
  | [] => s
  | t :: _ => t

/-- Decimal digit accumulator for `int(...)`. -/
def digitsVal? (acc : Nat) : List Char → Option Nat
  | [] => some acc
  | c :: cs =>
    if '0' ≤ c ∧ c ≤ '9' then digitsVal? (acc * 10 + (c.toNat - '0'.toNat)) cs
    else none

/-- Python `int(s)`: strip whitespace, optional sign, non-empty digit run;
`none` models the `ValueError` raised on anything else. -/
def pyInt? (s : String) : Option Int :=
  match pyStripChars s.data with
  | [] => none
  | '-' :: rest =>
    if rest = [] then none else (digitsVal? 0 rest).map (fun n => -(n : Int))
  | '+' :: rest =>
    if rest = [] then none else (digitsVal? 0 rest).map (fun n => (n : Int))
  | l => (digitsVal? 0 l).map (fun n => (n : Int))

/-- Python list indexing `l[i]` with negative-index wrap-around; `none`
models `IndexError`. -/
def pyGet? {α : Type} (l : List α) (i : Int) : Option α :=
  if 0 ≤ i then l.get? i.toNat
  else if 0 ≤ (l.length : Int) + i then l.get? ((l.length : Int) + i).toNat
  else none

/-- Normalize one slice bound the way Python does. -/
def pySliceNorm (len : Nat) (i : Int) : Nat :=
  if i < 0 then ((len : Int) + i).toNat else min i.toNat len

/-- Python slicing `l[a:b]` (never raises). -/
def pySlice {α : Type} (l : List α) (a b : Int) : List α :=
  let a' := pySliceNorm l.length a
  let b' := pySliceNorm l.length b
  (l.drop a').take (b' - a')

/-- Replace every occurrence of the character `c` by the string `r`;
this is Python `str.replace(c, r)` specialised to a one-character pattern
(the only uses in the source: `"\\"`, `"\""` and `","`). -/
def replChar (c : Char) (r : List Char) : List Char → List Char
  | [] => []
  | x :: xs => (if x = c then r else [x]) ++ replChar c r xs

/-- String wrapper for `replChar`. -/
def pyReplaceChar (s : String) (c : Char) (r : String) : String :=
  String.mk (replChar c r.data s.data)

/-! ## Data model -/

/-- The universe of values handled by structured testing (`parse_case`
produces them, `java_literal` renders them): Python ints, bools, strings
and (nested) lists thereof. -/
inductive PyVal where
  | str (s : String)
  | bool (b : Bool)
  | int (n : Int)
  | list (l : List PyVal)
  deriving Repr, Inhabited

/-- One raw test fixture of a problem: `{"input": ..., "output": ...}`. -/
structure TestCase where
  input : String
  output : String
  deriving Repr, DecidableEq, Inhabited

/-- A problem definition as consumed by the engine: `problem.get("id")`,
`problem.get("tests", [])` and the per-language `method_signatures`
entries the engine looks up (`"python"` and `"java"` are the only keys it
ever queries). -/
structure Problem where
  id : Option Int
  tests : List TestCase
  sigPython : Option String := none
  sigJava : Option String := none
  deriving Repr, Inhabited

/-- A `StructuredCase`: `{"args": args, "expected": expected}` produced by
`parse_case`. -/
structure SCase where
  args : List PyVal
  expected : PyVal
  deriving Repr, Inhabited

/-- The dictionary returned by a sandboxed runner
(`src/judge/*_runner.py`); missing keys read through `.get(key, default)`
are modelled by the field defaults. -/
structure ExecResult where
  success : Bool
  output : String
  error : String
  compile_error : Bool := false
  timeout : Bool := false
  deriving Repr, DecidableEq, Inhabited

/-- What one `subprocess.run(..., timeout=...)` call did: either the wall
clock timeout fired (`subprocess.TimeoutExpired`), or the process finished
with an exit code, stdout and stderr. -/
inductive ProcOutcome where
  | timedOut
  | completed (returncode : Int) (stdout : String) (stderr : String)
  deriving Repr, DecidableEq, Inhabited

/-- The two subprocesses one `cpp_runner.run` invocation may launch. -/
structure CppOracle where
  compileOutcome : ProcOutcome
  execOutcome : ProcOutcome
  deriving Repr, DecidableEq, Inhabited

/-- One per-test entry of `GradeReport.details`; dictionary keys that a
given code path does not set are modelled by the field defaults (matching
Python `.get(key, default)` reads). -/
structure Detail where
  input : String := ""
  expected : String := ""
  output : String := ""
  error : String := ""
  passed : Bool := false
  compile_error : Bool := false
  timeout : Bool := false
  deriving Repr, DecidableEq, Inhabited

/-- The `GradeReport` dictionary returned by every grading path. -/
structure Report where
  passed : Nat
  total : Nat
  details : List Detail
  compile_error : Bool
  deriving Repr, DecidableEq, Inhabited

/-- The value `grade_submission` hands back to its caller: a `GradeReport`
or the `{"error": ...}` dictionary for an unsupported language. -/
inductive GradeOutcome where
  | ok (r : Report)
  | err (msg : String)
  deriving Repr, DecidableEq, Inhabited

/-! ## Sandboxed runners (`src/judge/cpp_runner.py`, `python_runner.py`)

Each `run` call works in a fresh temporary directory and launches
subprocesses whose behaviour the oracles below stand for. -/

/-- `cpp_runner.run`: compile with `g++` (bounded by the timeout), then on
exit code 0 execute the binary on the given stdin.  Mirrors
`src/judge/cpp_runner.py` lines 18-71. -/
def cppRun (o : CppOracle) : ExecResult :=
  match o.compileOutcome with
  | .timedOut =>
    { success := false, output := "", error := "Compilation timed out",
      compile_error := true, timeout := true }
  | .completed rc _ stderr =>
    if rc != 0 then
      { success := false, output := "", error := stderr, compile_error := true }
    else
      match o.execOutcome with
      | .timedOut =>
        { success := false, output := "", error := "Execution timed out", timeout := true }
      | .completed erc stdout estderr =>
        { success := erc == 0, output := stdout, error := estderr }

/-- `python_runner.run`: write the code to `solution.py` and execute it on
the given stdin; no compile step.  Mirrors `src/judge/python_runner.py`
lines 45-70. -/
def pythonRun (o : ProcOutcome) : ExecResult :=
  match o with
  | .timedOut =>
    { success := false, output := "", error := "Execution timed out", timeout := true }
  | .completed rc stdout stderr =>
    { success := rc == 0, output := stdout, error := stderr }

/-! ## Case extraction (`src/utils/grader.py` lines 204-275) -/

/-- `a, b = map(int, toks)` for a token list: exactly two tokens, both
parsed by `int(...)`; `none` models the `ValueError` otherwise. -/
def twoInts? (toks : List String) : Option (Int × Int) :=
  match toks with
  | [a, b] => do
    let x ← pyInt? a
    let y ← pyInt? b
    pure (x, y)
  | _ => none

/-- The loop of problems 3/6/10: read `count` whitespace-separated integer
pairs from `lines` starting at (absolute) index `idx`. -/
def readPairs (lines : List String) (idx : Nat) : Nat → Option (List (Int × Int))
  | 0 => some []
  | n + 1 => do
    let line ← pyGet? lines (idx : Int)
    let p ← twoInts? (pySplitWs line)
    let rest ← readPairs lines (idx + 1) n
    pure (p :: rest)

/-- `[int(x.strip()) for x in toks if ...]` over a token list. -/
def parseIntList? (toks : List String) : Option (List Int) :=
  toks.foldr (fun t acc => do
    let n ← pyInt? t
    let rest ← acc
    pure (n :: rest)) (some [])

/-- `parse_case(problem_id, raw_input, raw_output)` from
`src/utils/grader.py` lines 217-275: the per-problem micro-grammar turning
a raw fixture into `(args, expected)`.  `none` models any escaping
exception (bad `int(...)`, out-of-range index, failed 2-tuple unpacking,
or an unknown problem id). -/
def parse_case (problem_id : Option Int) (raw_input raw_output : String) :
    Option (List PyVal × PyVal) :=
  let lines := (pySplitlines raw_input).filter (fun ln => pyStrip ln ≠ "")
  match problem_id with
  | some 1 => do
    let n ← pyGet? lines 0 >>= pyInt?
    let draft := pySlice lines 1 (1 + n)
    let idx : Int := 1 + n
    let m ← if idx < (lines.length : Int) then pyGet? lines idx >>= pyInt? else pure 0
    let fin := pySlice lines (idx + 1) (idx + 1 + m)
    let expected ← pyInt? (pyStrip raw_output)
    pure ([PyVal.list (draft.map .str), PyVal.list (fin.map .str)], PyVal.int expected)
  | some 2 => do
    let expected ← pyInt? (pyStrip raw_output)
    pure ([PyVal.str (pyStrip raw_input)], PyVal.int expected)
  | some 3 => do
    let n ← if lines ≠ [] then pyGet? lines 0 >>= pyInt? else pure 0
    let cookies ← readPairs lines 1 n.toNat
    let expected ← pyInt? (pyStrip raw_output)
    pure ([PyVal.list (cookies.map fun p => PyVal.list [.int p.1, .int p.2])],
      PyVal.int expected)
  | some 4 =>
    let elves := ((pySplitChar raw_input ',').map pyStrip).filter (· ≠ "")
    let expectedList := pySplitlines (pyStrip raw_output)
    some ([PyVal.list (elves.map .str)], PyVal.list (expectedList.map .str))
  | some 5 => do
    let nums ← parseIntList? (pySplitWs (pyReplaceChar raw_input ',' " "))
    let expectedList ← parseIntList?
      ((pySplitlines (pyStrip raw_output)).filter (fun x => pyStrip x ≠ ""))
    pure ([PyVal.list (nums.map .int)], PyVal.list (expectedList.map .int))
  | some 6 => do
    let startEnd ← pyGet? lines 0 >>= fun l => twoInts? (pySplitWs l)
    let n ← if lines.length > 1 then pyGet? lines 1 >>= pyInt? else pure 0
    let intervals ← readPairs lines 2 n.toNat
    pure ([PyVal.int startEnd.1, PyVal.int startEnd.2,
      PyVal.list (intervals.map fun p => PyVal.list [.int p.1, .int p.2])],
      PyVal.str (pyStrip raw_output))
  | some 7 => do
    let s ← pyGet? lines 0
    let k ← pyGet? lines 1 >>= pyInt?
    pure ([PyVal.str s, PyVal.int k], PyVal.str (pyStrip raw_output))
  | some 8 => do
    let nums ← parseIntList? (pySplitWs (pyReplaceChar raw_input ',' " "))
    let expected ← pyInt? (pyStrip raw_output)
    pure ([PyVal.list (nums.map .int)], PyVal.int expected)
  | some 9 => do
    let n ← pyGet? lines 0 >>= pyInt?
    let grid := pySlice lines 1 (1 + n)
    let expected ← pyInt? (pyStrip raw_output)
    pure ([PyVal.list (grid.map .str)], PyVal.int expected)
  | some 10 => do
    let n ← if lines ≠ [] then pyGet? lines 0 >>= pyInt? else pure 0
    let m ← if lines.length > 1 then pyGet? lines 1 >>= pyInt? else pure 0
    let edges ← readPairs lines 2 m.toNat
    pure ([PyVal.int n,
      PyVal.list (edges.map fun p => PyVal.list [.int p.1, .int p.2])],
      PyVal.str (pyStrip raw_output))
  | _ => none

/-- The loop body of `build_structured_cases` (lines 204-214): parse each
test in order, failing wholesale on the first exception. -/
def build_structured_cases_go (pid : Option Int) : List TestCase → Option (List SCase)
  | [] => some []
  | t :: ts =>
    match parse_case pid t.input t.output with
    | none => none
    | some (a, e) =>
      match build_structured_cases_go pid ts with
      | none => none
      | some cs => some ({ args := a, expected := e } :: cs)

/-- `build_structured_cases(problem)`: all-or-nothing extraction of the
problem's tests into structured cases. -/
def build_structured_cases (p : Problem) : Option (List SCase) :=
  build_structured_cases_go p.id p.tests

/-- `get_function_name(problem, language)` (lines 278-291).  The engine
always calls it with an already lower-cased language, so the
`sigs.get(language) or sigs.get(language.lower())` fallback reads the same
entry; a falsy (empty or missing) signature yields `None`. -/
def get_function_name (p : Problem) (language : String) : Option String :=
  let sig? := if language = "python" then p.sigPython
    else if language = "java" then p.sigJava
    else none
  match sig? with
  | none => none
  | some sig =>
    if sig = "" then none
    else if language = "python" then
      match pyAfterSub? sig "def " with
      | some after => some (pyStrip (strBeforeFirst after '('))
      | none => none
    else if language = "java" then
      let tokens := pySplitWs sig
      if tokens.length ≥ 4 then
        some (strBeforeFirst (tokens.getD 3 "") '(')
      else none
    else none

/-! ## Java literal rendering (`src/utils/grader.py` lines 423-448) -/

/-- `isinstance(x, int)` — in Python `bool` is a subtype of `int`, so both
int and bool values satisfy it. -/
def isIntInst : PyVal → Bool
  | .int _ => true
  | .bool _ => true
  | _ => false

/-- `isinstance(x, str)`. -/
def isStrInst : PyVal → Bool
  | .str _ => true
  | _ => false

/-- `isinstance(x, list) and all(isinstance(y, int) for y in x)`. -/
def isIntListInst : PyVal → Bool
  | .list m => m.all isIntInst
  | _ => false

/-- `isinstance(x, list) and all(isinstance(y, str) for y in x)`. -/
def isStrListInst : PyVal → Bool
  | .list m => m.all isStrInst
  | _ => false

/-- Python `str(x)` for the values that reach it inside `java_literal`'s
`all(isinstance(x, int))` branches (ints and bools; the other constructors
cannot satisfy those guards, their equations are never exercised). -/
def pyStr : PyVal → String
  | .int n => toString n
  | .bool b => if b then "True" else "False"
  | .str s => s
  | .list _ => ""

/-- The elements of a `PyVal.list` (callers guard with `isinstance(x, list)`,
so the default for non-lists is never exercised). -/
def elemsOf : PyVal → List PyVal
  | .list m => m
  | _ => []

/-- `java_list_str(items)` (line 423). -/
def java_list_str (items : List String) : String :=
  "Arrays.asList(" ++ joinWith ", " items ++ ")"

/-- The string branch of `java_literal` (line 429): the two sequential
single-character `str.replace` calls of the source, then quoting. -/
def strLitJ (s : String) : String :=
  "\"" ++ pyReplaceChar (pyReplaceChar s '\\' "\\\\") '"' "\\\"" ++ "\""

/-- The string payload of a `PyVal.str` (callers guard with
`isinstance(x, str)`, so the default is never exercised). -/
def strOf : PyVal → String
  | .str s => s
  | _ => ""

/-- `java_literal(val)` (lines 427-448): render a `PyVal` as Java source
text.  The source's recursive calls `java_literal(x)` occur only under
`all(isinstance(x, str))` guards, where they evaluate the string branch;
they are inlined as `strLitJ (strOf x)` accordingly, which makes the
definition structurally non-recursive. -/
def java_literal : PyVal → String
  | .str s => strLitJ s
  | .bool b => if b then "true" else "false"
  | .int n => toString n
  | .list l =>
    if l.isEmpty then "new ArrayList<>()"
    else if l.all isIntInst then
      "Arrays.asList(" ++ joinWith ", " (l.map pyStr) ++ ")"
    else if l.all isStrInst then
      java_list_str (l.map fun x => strLitJ (strOf x))
    else if l.all isIntListInst then
      "new int[][]\x7b" ++ joinWith ", "
        (l.map fun x => "new int[]\x7b" ++ joinWith ", " ((elemsOf x).map pyStr) ++ "\x7d") ++ "\x7d"
    else if l.all isStrListInst then
      "new String[][]\x7b" ++ joinWith ", "
        (l.map fun x =>
          "new String[]\x7b" ++
            joinWith ", " ((elemsOf x).map fun y => strLitJ (strOf y)) ++ "\x7d") ++ "\x7d"
    else "null"

/-! ## Structured grading (`src/utils/grader.py` lines 294-420)

The harness source files that `grade_structured_python` /
`grade_structured_java` write into the temporary directory determine what
the harness subprocesses print; those subprocess runs are modelled by
`ProcOutcome` oracles, and the engine's parsing of their stdout is
embedded exactly. -/

/-- The stdout-parsing loop of `grade_structured_python` (lines 348-364):
one detail per line that starts with `RESULT|`; other lines are ignored.
`none` models the exception escaping from `int(parts[1])` or a missing
`parts[2]`.  Returns the details and the pass count. -/
def parse_result_lines_py : List String → Option (List Detail × Nat)
  | [] => some ([], 0)
  | line :: rest =>
    if pyStartsWith line "RESULT|" then
      let parts := pySplitChar line '|'
      match pyGet? parts 1 >>= pyInt? with
      | none => none
      | some _ =>
        match pyGet? parts 2 with
        | none => none
        | some status =>
          let d : Detail :=
            if status = "PASS" then { passed := true, error := "" }
            else if pyStartsWith status "FAIL" then
              { passed := false,
                error := if parts.length ≥ 5 then
                    "Got " ++ parts.getD 3 "" ++ " Expected " ++ parts.getD 4 ""
                  else "Mismatch" }
            else
              { passed := false,
                error := if parts.length > 3 then parts.getD 3 "" else "Error" }
          let inc : Nat := if status = "PASS" then 1 else 0
          match parse_result_lines_py rest with
          | none => none
          | some (ds, p) => some (d :: ds, inc + p)
    else parse_result_lines_py rest

/-- The stdout-parsing loop of `grade_structured_java` (lines 402-418):
like the Python one, but `FAIL` is matched exactly and the default error
text is `"Runtime error"`. -/
def parse_result_lines_java : List String → Option (List Detail × Nat)
  | [] => some ([], 0)
  | line :: rest =>
    if pyStartsWith line "RESULT|" then
      let parts := pySplitChar line '|'
      match pyGet? parts 1 >>= pyInt? with
      | none => none
      | some _ =>
        match pyGet? parts 2 with
        | none => none
        | some status =>
          let d : Detail :=
            if status = "PASS" then { passed := true, error := "" }
            else if status = "FAIL" then
              { passed := false,
                error := "Got " ++ (if parts.length > 3 then parts.getD 3 "" else "")
                  ++ " Expected " ++ (if parts.length > 4 then parts.getD 4 "" else "") }
            else
              { passed := false,
                error := if parts.length > 3 then parts.getD 3 "" else "Runtime error" }
          let inc : Nat := if status = "PASS" then 1 else 0
          match parse_result_lines_java rest with
          | none => none
          | some (ds, p) => some (d :: ds, inc + p)
    else parse_result_lines_java rest

/-- `grade_structured_python(code, func_name, cases)` (lines 307-366):
write solution and generated runner, execute the runner subprocess
(modelled by `po`), flag `compile_error` on a non-zero exit, and parse the
`RESULT|` line protocol from its stdout.  `none` models the
`TimeoutExpired` of the subprocess call or a parsing exception. -/
def grade_structured_python (po : ProcOutcome) (cases : List SCase) : Option Report :=
  match po with
  | .timedOut => none
  | .completed rc stdout _ =>
    let stdout_lines := pySplitlines stdout
    let compile_error := rc != 0
    match parse_result_lines_py stdout_lines with
    | none => none
    | some (details, passed) =>
      some { passed := passed, total := cases.length, details := details,
             compile_error := compile_error }

/-- `grade_structured_java(code, func_name, cases, problem_id)` (lines
369-420): compile `Main.java` + generated `Harness.java` (subprocess
modelled by `compileOutcome`); on a non-zero compiler exit return the
single synthetic compile-error detail; otherwise run the harness
(`runOutcome`) and parse its stdout — the harness process's own exit code
is ignored. -/
def grade_structured_java (compileOutcome runOutcome : ProcOutcome)
    (cases : List SCase) : Option Report :=
  match compileOutcome with
  | .timedOut => none
  | .completed crc _ cerr =>
    if crc != 0 then
      some { passed := 0, total := cases.length,
             details := [{ passed := false, error := cerr, compile_error := true }],
             compile_error := true }
    else
      match runOutcome with
      | .timedOut => none
      | .completed _ rout _ =>
        match parse_result_lines_java (pySplitlines rout) with
        | none => none
        | some (details, passed) =>
          some { passed := passed, total := cases.length, details := details,
                 compile_error := false }

/-- The harness subprocesses a structured grading attempt may launch. -/
structure StructOracle where
  pyProc : ProcOutcome
  javaCompile : ProcOutcome
  javaRun : ProcOutcome
  deriving Repr, Inhabited

/-- `grade_structured(language, code, problem, cases)` (lines 294-304):
raises (`none`) when the function name or the problem id is falsy, then
dispatches on the language. -/
def grade_structured (language : String) (p : Problem) (cases : List SCase)
    (so : StructOracle) : Option Report :=
  let funcOk := match get_function_name p language with
    | some fn => fn != ""
    | none => false
  let idOk := match p.id with
    | some n => n != 0
    | none => false
  if funcOk && idOk then
    if language = "python" then grade_structured_python so.pyProc cases
    else if language = "java" then grade_structured_java so.javaCompile so.javaRun cases
    else none
  else none

/-! ## Stdin-based grading and the orchestrator
(`src/utils/grader.py` lines 126-184)

The `i`-th executed test invokes the language's runner once; `rs i` is the
`ExecResult` that invocation returned (the runner itself is modelled by
`cppRun` / `pythonRun` above, and the theorems instantiate `rs` with
them). -/

/-- The detail dictionary appended for an executed test (lines 163-173). -/
def ranDetail (res : ExecResult) (t : TestCase) : Detail :=
  { input := t.input,
    expected := pyStrip t.output,
    output := res.output,
    error := res.error,
    passed := res.success && (pyStrip res.output == pyStrip t.output),
    compile_error := res.compile_error,
    timeout := res.timeout }

/-- The detail dictionary appended for a test skipped after a compile
failure (lines 148-156); its dictionary has no `compile_error`/`timeout`
keys, so those read back as the defaults. -/
def skipDetail (t : TestCase) : Detail :=
  { input := t.input,
    expected := pyStrip t.output,
    output := "",
    passed := false,
    error := "Compilation failed" }

/-- Accumulated state of the stdin grading loop. -/
structure LoopOut where
  details : List Detail
  passed : Nat
  compile_failure : Bool
  deriving Repr, DecidableEq, Inhabited

/-- The `for test in tests` loop of `grade_submission` (lines 146-177):
`i` is the index of the current test, `cf` the `compile_failure` flag. -/
def stdinGo (rs : Nat → ExecResult) : List TestCase → Nat → Bool → LoopOut
  | [], _, cf => { details := [], passed := 0, compile_failure := cf }
  | t :: rest, i, cf =>
    if cf then
      let out := stdinGo rs rest (i + 1) cf
      { details := skipDetail t :: out.details, passed := out.passed,
        compile_failure := out.compile_failure }
    else
      let res := rs i
      let d := ranDetail res t
      let out := stdinGo rs rest (i + 1) res.compile_error
      { details := d :: out.details,
        passed := (if d.passed then 1 else 0) + out.passed,
        compile_failure := out.compile_failure }

/-- The stdin-based grading path: run the loop and assemble the
`GradeReport` (lines 141-184). -/
def gradeStdin (rs : Nat → ExecResult) (tests : List TestCase) : Report :=
  let out := stdinGo rs tests 0 false
  { passed := out.passed, total := tests.length, details := out.details,
    compile_error := out.compile_failure }

/-- The number of runner invocations the stdin loop makes.  Each
invocation of `cpp_runner.run` launches exactly one `g++` compile
subprocess before any branching (`src/judge/cpp_runner.py` lines 25-32),
so for a C-family submission this is also the number of compilation
attempts of the grading call. -/
def stdinRunnerCalls (rs : Nat → ExecResult) : List TestCase → Nat → Bool → Nat
  | [], _, _ => 0
  | _ :: rest, i, cf =>
    if cf then stdinRunnerCalls rs rest (i + 1) cf
    else 1 + stdinRunnerCalls rs rest (i + 1) (rs i).compile_error

/-- Which language family each registered runner belongs to. -/
inductive RunnerTag where
  | python
  | java
  | cpp
  deriving Repr, DecidableEq, Inhabited

/-- The `RUNNERS` registry (lines 47-54). -/
def RUNNERS : List (String × RunnerTag) :=
  [("python", .python), ("py", .python), ("java", .java),
   ("c++", .cpp), ("cpp", .cpp), ("c", .cpp)]

/-- `(language or "").strip().lower()`. -/
def langKeyOf (language : String) : String := pyLower (pyStrip language)

/-- `grade_submission(language, code, problem)` (lines 126-184).
`apply_language_boilerplate` only rewrites the source text handed to the
subprocesses, whose behaviour the oracles model, so the prepared code does
not appear explicitly.  The structured attempt's `none` (either "path not
taken" or "exception raised, silently swallowed") falls through to the
stdin path. -/
def grade_submission (language _code : String) (p : Problem)
    (so : StructOracle) (rs : Nat → ExecResult) : GradeOutcome :=
  let lang_key := langKeyOf language
  let structuredAttempt : Option Report :=
    match build_structured_cases p with
    | some cs =>
      if (!cs.isEmpty) && (lang_key == "java" || lang_key == "python") then
        grade_structured lang_key p cs so
      else none
    | none => none
  match structuredAttempt with
  | some r => .ok r
  | none =>
    match RUNNERS.lookup lang_key with
    | none => .err ("Unsupported language: " ++ language)
    | some _ => .ok (gradeStdin rs p.tests)

/-! ## Lemmas about the stdin grading loop -/

theorem stdinGo_details_length (rs : Nat → ExecResult) :
    ∀ (tests : List TestCase) (i : Nat) (cf : Bool),
      (stdinGo rs tests i cf).details.length = tests.length := by
  intro tests
  induction tests with
  | nil => intro i cf; simp [stdinGo]
  | cons t rest ih =>
    intro i cf
    by_cases h : cf = true
    · simp [stdinGo, h, ih]
    · simp at h
      simp [stdinGo, h, ih]

theorem stdinGo_skipAll (rs : Nat → ExecResult) :
    ∀ (tests : List TestCase) (i : Nat),
      stdinGo rs tests i true =
        { details := tests.map skipDetail, passed := 0, compile_failure := true } := by
  intro tests
  induction tests with
  | nil => intro i; simp [stdinGo]
  | cons t rest ih => intro i; simp [stdinGo, ih]

theorem stdinGo_get_ran (rs : Nat → ExecResult) :
    ∀ (tests : List TestCase) (k i : Nat) (t : TestCase),
      tests.get? i = some t →
      (∀ j, j < i → (rs (k + j)).compile_error = false) →
      (stdinGo rs tests k false).details.get? i = some (ranDetail (rs (k + i)) t) := by
  intro tests
  induction tests with
  | nil => intro k i t h _; simp at h
  | cons t0 rest ih =>
    intro k i t hget hce
    cases i with
    | zero =>
      rw [List.get?_cons_zero] at hget
      injection hget with hget
      subst hget
      simp [stdinGo]
    | succ n =>
      have hce0 : (rs k).compile_error = false := by
        have := hce 0 (Nat.succ_pos n)
        simpa using this
      rw [List.get?_cons_succ] at hget
      have hrec := ih (k + 1) n t hget (fun j hj => by
        have := hce (j + 1) (by omega)
        simpa [Nat.add_assoc, Nat.add_comm 1 j] using this)
      have harith : k + (n + 1) = k + 1 + n := by omega
      rw [harith]
      simp only [stdinGo, hce0, Bool.false_eq_true, if_false]
      rw [List.get?_cons_succ]
      exact hrec

theorem stdinGo_get_align (rs : Nat → ExecResult) :
    ∀ (tests : List TestCase) (k : Nat) (cf : Bool) (i : Nat) (t : TestCase),
      tests.get? i = some t →
      ∃ d, (stdinGo rs tests k cf).details.get? i = some d ∧
        d.input = t.input ∧ d.expected = pyStrip t.output := by
  intro tests
  induction tests with
  | nil => intro k cf i t h; simp at h
  | cons t0 rest ih =>
    intro k cf i t hget
    cases i with
    | zero =>
      rw [List.get?_cons_zero] at hget
      injection hget with hget
      subst hget
      by_cases h : cf = true
      · exact ⟨skipDetail t0, by simp [stdinGo, h], rfl, rfl⟩
      · simp only [Bool.not_eq_true] at h
        exact ⟨ranDetail (rs k) t0, by simp [stdinGo, h], rfl, rfl⟩
    | succ n =>
      rw [List.get?_cons_succ] at hget
      by_cases h : cf = true
      · obtain ⟨d, hd, hi, he⟩ := ih (k + 1) true n t hget
        refine ⟨d, ?_, hi, he⟩
        simp only [stdinGo, h, if_true]
        rw [List.get?_cons_succ]
        exact hd
      · simp only [Bool.not_eq_true] at h
        obtain ⟨d, hd, hi, he⟩ := ih (k + 1) ((rs k).compile_error) n t hget
        refine ⟨d, ?_, hi, he⟩
        simp only [stdinGo, h, Bool.false_eq_true, if_false]
        rw [List.get?_cons_succ]
        exact hd

theorem stdinRunnerCalls_noFail (rs : Nat → ExecResult)
    (hce : ∀ i, (rs i).compile_error = false) :
    ∀ (tests : List TestCase) (k : Nat),
      stdinRunnerCalls rs tests k false = tests.length := by
  intro tests
  induction tests with
  | nil => intro k; simp [stdinRunnerCalls]
  | cons t rest ih =>
    intro k
    simp [stdinRunnerCalls, hce, ih]
    omega

theorem stdinRunnerCalls_skipAll (rs : Nat → ExecResult) :
    ∀ (tests : List TestCase) (k : Nat),
      stdinRunnerCalls rs tests k true = 0 := by
  intro tests
  induction tests with
  | nil => intro k; simp [stdinRunnerCalls]
  | cons t rest ih => intro k; simp [stdinRunnerCalls, ih]

/-! ## Lemmas about case extraction -/

theorem build_structured_cases_go_length (pid : Option Int) :
    ∀ (tests : List TestCase) (cs : List SCase),
      build_structured_cases_go pid tests = some cs → cs.length = tests.length := by
  intro tests
  induction tests with
  | nil =>
    intro cs h
    simp [build_structured_cases_go] at h
    simp [← h]
  | cons t rest ih =>
    intro cs h
    simp only [build_structured_cases_go] at h
    cases hp : parse_case pid t.input t.output with
    | none => rw [hp] at h; exact absurd h (by simp)
    | some ae =>
      rw [hp] at h
      cases hr : build_structured_cases_go pid rest with
      | none => rw [hr] at h; exact absurd h (by simp)
      | some cs' =>
        rw [hr] at h
        obtain ⟨a, e⟩ := ae
        simp at h
        rw [← h]
        simp [ih cs' hr]

theorem build_structured_cases_go_get? (pid : Option Int) :
    ∀ (tests : List TestCase) (cs : List SCase) (i : Nat) (t : TestCase),
      build_structured_cases_go pid tests = some cs →
      tests.get? i = some t →
      ∃ a e, parse_case pid t.input t.output = some (a, e) ∧
        cs.get? i = some { args := a, expected := e } := by
  intro tests
  induction tests with
  | nil => intro cs i t _ h; simp at h
  | cons t0 rest ih =>
    intro cs i t hcs hget
    simp only [build_structured_cases_go] at hcs
    cases hp : parse_case pid t0.input t0.output with
    | none => rw [hp] at hcs; exact absurd hcs (by simp)
    | some ae =>
      rw [hp] at hcs
      cases hr : build_structured_cases_go pid rest with
      | none => rw [hr] at hcs; exact absurd hcs (by simp)
      | some cs' =>
        rw [hr] at hcs
        obtain ⟨a, e⟩ := ae
        simp at hcs
        cases i with
        | zero =>
          simp at hget
          subst hget
          exact ⟨a, e, hp, by simp [← hcs]⟩
        | succ n =>
          rw [List.get?_cons_succ] at hget
          obtain ⟨a', e', hp', hg'⟩ := ih cs' n t hr hget
          refine ⟨a', e', hp', ?_⟩
          rw [← hcs, List.get?_cons_succ]
          exact hg' 

theorem build_structured_cases_go_none (pid : Option Int) :
    ∀ (tests : List TestCase) (t : TestCase),
      t ∈ tests → parse_case pid t.input t.output = none →
      build_structured_cases_go pid tests = none := by
  intro tests
  induction tests with
  | nil => intro t h; simp at h
  | cons t0 rest ih =>
    intro t hmem hnone
    rcases List.mem_cons.mp hmem with h | h
    · subst h
      simp [build_structured_cases_go, hnone]
    · simp only [build_structured_cases_go]
      cases hp : parse_case pid t0.input t0.output with
      | none => rfl
      | some ae =>
        obtain ⟨a, e⟩ := ae
        rw [ih t h hnone]

/-! ## Lemmas about harness stdout parsing -/

theorem parse_result_lines_py_length :
    ∀ (lines : List String) (ds : List Detail) (p : Nat),
      parse_result_lines_py lines = some (ds, p) →
      ds.length = (lines.filter (fun l => pyStartsWith l "RESULT|")).length := by
  intro lines
  induction lines with
  | nil => intro ds p h; simp [parse_result_lines_py] at h; simp [← h.1]
  | cons line rest ih =>
    intro ds p h
    simp only [parse_result_lines_py] at h
    by_cases hs : pyStartsWith line "RESULT|"
    · rw [if_pos hs] at h
      cases h1 : pyGet? (pySplitChar line '|') 1 >>= pyInt? with
      | none => rw [h1] at h; exact absurd h (by simp)
      | some n =>
        rw [h1] at h
        cases h2 : pyGet? (pySplitChar line '|') 2 with
        | none => rw [h2] at h; exact absurd h (by simp)
        | some status =>
          rw [h2] at h
          cases h3 : parse_result_lines_py rest with
          | none => simp [h3] at h
          | some dsp =>
            obtain ⟨ds', p'⟩ := dsp
            simp [h3] at h
            rw [← h.1]
            simp [List.filter_cons, hs, ih ds' p' h3]
    · rw [if_neg hs] at h
      have := ih ds p h
      simp [List.filter_cons, hs, this]

/-! ## Outcome classification of a runner invocation (claim C4)

The four verdict classes of the spec: compile error, (execution) timeout,
success, and failure-with-nonzero-exit.  An `ExecResult` is counted in the
timeout class only when it is not also a compile error, because the spec
allows `timeout` to co-occur with the compile phase. -/

/-- How many of the four spec verdict classes an `ExecResult` belongs to. -/
def classCount (r : ExecResult) : Nat :=
  (if r.compile_error then 1 else 0) +
  (if r.timeout && !r.compile_error then 1 else 0) +
  (if r.success then 1 else 0) +
  (if !r.success && !r.compile_error && !r.timeout then 1 else 0)

/-! ## Specification-side Java literal renderer (claim C8)

A second renderer written directly from the (amended) spec wording: first
classify the value's shape, then render each shape by its dedicated rule.
It is compared with the source-derived `java_literal` above. -/

/-- The shapes distinguished by the spec's rendering rules. -/
inductive JavaShape where
  | jstr (s : String)
  | jbool (b : Bool)
  | jint (n : Int)
  | jempty
  | jintSeq (l : List PyVal)
  | jstrSeq (l : List PyVal)
  | jint2d (l : List PyVal)
  | jstr2d (l : List PyVal)
  | junknown
  deriving Repr, Inhabited

/-- Shape classification.  Following Python's `bool <: int` subtyping, a
non-empty sequence whose elements are all ints-or-bools counts as an
integer sequence (likewise inside 2-D sequences). -/
def classifyJavaShape : PyVal → JavaShape
  | .str s => .jstr s
  | .bool b => .jbool b
  | .int n => .jint n
  | .list l =>
    if l.isEmpty then .jempty
    else if l.all isIntInst then .jintSeq l
    else if l.all isStrInst then .jstrSeq l
    else if l.all isIntListInst then .jint2d l
    else if l.all isStrListInst then .jstr2d l
    else .junknown

/-- The spec's escaping rule, stated directly: walk the string once and
escape exactly the backslash and the quote character. -/
def escapeSpec : List Char → List Char
  | [] => []
  | c :: cs =>
    (if c = '\\' then ['\\', '\\'] else if c = '"' then ['\\', '"'] else [c])
      ++ escapeSpec cs

/-- Spec-side string literal: quoted, with `escapeSpec` applied. -/
def strLitSpec (s : String) : String :=
  "\"" ++ String.mk (escapeSpec s.data) ++ "\""

/-- Spec-side rendering of each shape. -/
def renderJavaShape : JavaShape → String
  | .jstr s => strLitSpec s
  | .jbool b => if b then "true" else "false"
  | .jint n => toString n
  | .jempty => "new ArrayList<>()"
  | .jintSeq l => "Arrays.asList(" ++ joinWith ", " (l.map pyStr) ++ ")"
  | .jstrSeq l =>
    "Arrays.asList(" ++ joinWith ", " (l.map fun v => strLitSpec (strOf v)) ++ ")"
  | .jint2d l =>
    "new int[][]\x7b" ++ joinWith ", "
      (l.map fun x => "new int[]\x7b" ++ joinWith ", " ((elemsOf x).map pyStr) ++ "\x7d") ++ "\x7d"
  | .jstr2d l =>
    "new String[][]\x7b" ++ joinWith ", "
      (l.map fun x =>
        "new String[]\x7b" ++
          joinWith ", " ((elemsOf x).map fun y => strLitSpec (strOf y)) ++ "\x7d") ++ "\x7d"
  | .junknown => "null"

/-- The spec-side renderer: classify, then render. -/
def javaLiteralSpec (v : PyVal) : String := renderJavaShape (classifyJavaShape v)

theorem replChar_append (c : Char) (r : List Char) (a b : List Char) :
    replChar c r (a ++ b) = replChar c r a ++ replChar c r b := by
  induction a with
  | nil => simp [replChar]
  | cons x xs ih => simp [replChar, ih]

theorem replChar_escape_eq_escapeSpec :
    ∀ l : List Char,
      replChar '"' ['\\', '"'] (replChar '\\' ['\\', '\\'] l) = escapeSpec l := by
  intro l
  induction l with
  | nil => simp [replChar, escapeSpec]
  | cons c cs ih =>
    by_cases h1 : c = '\\'
    · subst h1
      simp [replChar, escapeSpec, replChar_append, ih]
    · by_cases h2 : c = '"'
      · subst h2
        simp [replChar, escapeSpec, replChar_append, h1, ih]
      · simp [replChar, escapeSpec, replChar_append, h1, h2, ih]

theorem strLitJ_eq_strLitSpec (s : String) : strLitJ s = strLitSpec s := by
  simp only [strLitJ, strLitSpec, pyReplaceChar]
  rw [replChar_escape_eq_escapeSpec]

/-! ## Lemmas about the runners -/

theorem pythonRun_success_iff (po : ProcOutcome) :
    (pythonRun po).success = true ↔ ∃ out err, po = .completed 0 out err := by
  cases po with
  | timedOut => simp [pythonRun]
  | completed rc out err =>
    simp only [pythonRun, beq_iff_eq]
    constructor
    · intro h
      exact ⟨out, err, by rw [h]⟩
    · rintro ⟨o, e, h⟩
      exact (ProcOutcome.completed.inj h).1

theorem cppRun_success_iff (o : CppOracle) :
    (cppRun o).success = true ↔
      ((∃ so se, o.compileOutcome = .completed 0 so se) ∧
       (∃ so se, o.execOutcome = .completed 0 so se)) := by
  rcases o with ⟨c, e⟩
  cases c with
  | timedOut => simp [cppRun]
  | completed crc cso cse =>
    by_cases hc : crc = 0
    · subst hc
      cases e with
      | timedOut => simp [cppRun]
      | completed erc eso ese =>
        simp only [cppRun, bne_self_eq_false, Bool.false_eq_true, if_false, beq_iff_eq]
        constructor
        · intro h
          exact ⟨⟨cso, cse, rfl⟩, eso, ese, by rw [h]⟩
        · rintro ⟨_, ⟨o', e', h⟩⟩
          exact (ProcOutcome.completed.inj h).1
    · have hbne : (crc != 0) = true := bne_iff_ne.mpr hc
      simp only [cppRun, hbne, if_true]
      simp only [Bool.false_eq_true, false_iff]
      rintro ⟨⟨so, se, h⟩, _⟩
      exact hc (ProcOutcome.completed.inj h).1

theorem classCount_cppRun (o : CppOracle) : classCount (cppRun o) = 1 := by
  rcases o with ⟨c, e⟩
  cases c with
  | timedOut => rfl
  | completed crc cso cse =>
    by_cases hc : crc = 0
    · subst hc
      simp only [cppRun, bne_self_eq_false, Bool.false_eq_true, if_false]
      cases e with
      | timedOut => rfl
      | completed erc eso ese =>
        by_cases he : erc = 0
        · subst he; rfl
        · have : (erc == 0) = false := beq_eq_false_iff_ne.mpr he
          simp [classCount, this]
    · have hbne : (crc != 0) = true := bne_iff_ne.mpr hc
      simp [cppRun, hbne, classCount]

theorem classCount_pythonRun (po : ProcOutcome) : classCount (pythonRun po) = 1 := by
  cases po with
  | timedOut => rfl
  | completed rc out err =>
    by_cases h : rc = 0
    · subst h; rfl
    · have : (rc == 0) = false := beq_eq_false_iff_ne.mpr h
      simp [pythonRun, classCount, this]

/-! ## Claims -/

/-- A constant stdin-runner oracle (used to state closed witnesses). -/
def constRS (r : ExecResult) : Nat → ExecResult := fun _ => r

/-- A constant compiled-runner oracle (used to state closed witnesses). -/
def constCO (o : CppOracle) : Nat → CppOracle := fun _ => o

/-- **C9.** For every submission whose language (case-insensitively, after
trimming) has no registered runner, `grade_submission` returns the
error-only result `{"error": "Unsupported language: <name>"}` instead of a
`GradeReport`, and no candidate code is executed: the outcome is
independent of everything the structured-path and stdin-path subprocess
oracles could do. -/
theorem unsupported_language_error_only
    (language code : String) (p : Problem)
    (so so' : StructOracle) (rs rs' : Nat → ExecResult)
    (h : RUNNERS.lookup (langKeyOf language) = none) :
    grade_submission language code p so rs = .err ("Unsupported language: " ++ language) ∧
    grade_submission language code p so rs = grade_submission language code p so' rs' := by
  have hj : (langKeyOf language == "java") = false := by
    apply beq_eq_false_iff_ne.mpr
    intro he
    rw [he] at h
    exact absurd h (by decide)
  have hp : (langKeyOf language == "python") = false := by
    apply beq_eq_false_iff_ne.mpr
    intro he
    rw [he] at h
    exact absurd h (by decide)
  constructor
  · simp only [grade_submission]
    cases hb : build_structured_cases p with
    | none => simp [h]
    | some cs => simp [hj, hp, h]
  · simp only [grade_submission]
    cases hb : build_structured_cases p with
    | none => simp [h]
    | some cs => simp [hj, hp, h]

/-- Closed witness for C9 at the concrete language `"Ruby"`. -/
theorem unsupported_language_error_only_witness :
    grade_submission "Ruby" "puts 1" { id := some 2, tests := [⟨"a", "b"⟩] }
        ⟨.timedOut, .timedOut, .timedOut⟩ (constRS default) =
      .err "Unsupported language: Ruby" :=
  (unsupported_language_error_only "Ruby" "puts 1"
    { id := some 2, tests := [⟨"a", "b"⟩] }
    ⟨.timedOut, .timedOut, .timedOut⟩ ⟨.timedOut, .timedOut, .timedOut⟩
    (constRS default) (constRS default) (by decide)).1

/-- **C10.** Whenever Python structured grading completes and returns a
report, the report's `compile_error` flag is true iff the harness
subprocess exited with a non-zero status (there is no compile step on this
interpreted path: a runtime exception escaping the candidate's top-level
code makes the harness process exit non-zero and is thus reported as a
compile error). -/
theorem structured_python_compile_error_iff_nonzero_exit
    (rc : Int) (out err : String) (cases : List SCase) (r : Report)
    (h : grade_structured_python (.completed rc out err) cases = some r) :
    (r.compile_error = true ↔ rc ≠ 0) := by
  simp only [grade_structured_python] at h
  cases hp : parse_result_lines_py (pySplitlines out) with
  | none => rw [hp] at h; exact absurd h (by simp)
  | some dsp =>
    obtain ⟨ds, pn⟩ := dsp
    rw [hp] at h
    simp only [Option.some.injEq] at h
    rw [← h]
    simp [bne_iff_ne]

/-- Closed witness for C10: an import-failure harness run (exit 1, no
output) is reported with `compile_error = true`. -/
theorem structured_python_compile_error_iff_nonzero_exit_witness :
    grade_structured_python (.completed 1 "" "Traceback") [⟨[.int 1], .int 1⟩] =
      some { passed := 0, total := 1, details := [], compile_error := true } ∧
    (1 : Int) ≠ 0 :=
  ⟨rfl, (structured_python_compile_error_iff_nonzero_exit 1 "" "Traceback"
    [⟨[.int 1], .int 1⟩] _ rfl).mp rfl⟩

/-- **C7.** Structured case extraction is all-or-nothing:
`build_structured_cases` returns either one `StructuredCase` per test — in
test order, each the parse of the corresponding test — or `None`; if any
single test fails to parse under the problem's rule, the result is `None`
with no partial list. -/
theorem extraction_all_or_nothing (p : Problem) :
    (∀ cs, build_structured_cases p = some cs →
      cs.length = p.tests.length ∧
      ∀ i t, p.tests.get? i = some t →
        ∃ a e, parse_case p.id t.input t.output = some (a, e) ∧
          cs.get? i = some { args := a, expected := e }) ∧
    (∀ t ∈ p.tests, parse_case p.id t.input t.output = none →
      build_structured_cases p = none) := by
  constructor
  · intro cs hcs
    exact ⟨build_structured_cases_go_length _ _ _ hcs,
      fun i t ht => build_structured_cases_go_get? _ _ _ i t hcs ht⟩
  · intro t hmem hnone
    exact build_structured_cases_go_none _ _ t hmem hnone

/-- Closed witness for C7: a fully parsable two-test problem extracts to a
two-case list, and one unparsable test (a non-integer expected output for
problem 2) poisons the whole extraction. -/
theorem extraction_all_or_nothing_witness :
    build_structured_cases { id := some 2, tests := [⟨"abc", "5"⟩, ⟨"xy", "7"⟩] } =
      some [⟨[.str "abc"], .int 5⟩, ⟨[.str "xy"], .int 7⟩] ∧
    ([(⟨[.str "abc"], .int 5⟩ : SCase), ⟨[.str "xy"], .int 7⟩]).length =
      ([(⟨"abc", "5"⟩ : TestCase), ⟨"xy", "7"⟩]).length ∧
    build_structured_cases { id := some 2, tests := [⟨"abc", "5"⟩, ⟨"xy", "oops"⟩] } = none := by
  refine ⟨rfl, ?_, ?_⟩
  · exact ((extraction_all_or_nothing
      { id := some 2, tests := [⟨"abc", "5"⟩, ⟨"xy", "7"⟩] }).1 _ rfl).1
  · exact (extraction_all_or_nothing
      { id := some 2, tests := [⟨"abc", "5"⟩, ⟨"xy", "oops"⟩] }).2
      ⟨"xy", "oops"⟩ (by simp) rfl


/-- The `passed` flag of an executed test's detail, unfolded. -/
theorem ranDetail_passed_iff (res : ExecResult) (t : TestCase) :
    (ranDetail res t).passed = true ↔
      (res.success = true ∧ pyStrip res.output = pyStrip t.output) := by
  simp [ranDetail, Bool.and_eq_true, beq_iff_eq]

/-- **C3.** In stdin-based grading, an executed test case's detail has
`passed` true iff the runner reported success and the candidate's trimmed
stdout is exactly string-equal to the trimmed expected output; for the
interpreted runner, "success" means precisely that the process completed
with exit status zero (so neither a timeout nor a non-zero exit can pass),
and for the compiled runner that both the compile and the execute phase
completed with exit status zero. -/
theorem stdin_pass_iff_success_and_match :
    (∀ (rs : Nat → ExecResult) (tests : List TestCase) (i : Nat) (t : TestCase),
      tests.get? i = some t →
      (∀ j, j < i → (rs j).compile_error = false) →
      ∃ d, (gradeStdin rs tests).details.get? i = some d ∧
        (d.passed = true ↔
          ((rs i).success = true ∧ pyStrip (rs i).output = pyStrip t.output))) ∧
    (∀ po : ProcOutcome,
      (pythonRun po).success = true ↔ ∃ out err, po = .completed 0 out err) ∧
    (∀ o : CppOracle,
      (cppRun o).success = true ↔
        ((∃ so se, o.compileOutcome = .completed 0 so se) ∧
         (∃ so se, o.execOutcome = .completed 0 so se))) := by
  refine ⟨?_, pythonRun_success_iff, cppRun_success_iff⟩
  intro rs tests i t hget hce
  have h := stdinGo_get_ran rs tests 0 i t hget (fun j hj => by
    simpa using hce j hj)
  refine ⟨ranDetail (rs i) t, ?_, ranDetail_passed_iff (rs i) t⟩
  simpa [gradeStdin] using h

/-- Closed witness for C3: a one-test grading where the runner exits 0
and the trimmed outputs agree is marked passed; the exit-status reading of
"success" is exercised at a concrete completed process. -/
theorem stdin_pass_iff_success_and_match_witness :
    ((gradeStdin (constRS (pythonRun (.completed 0 " 5\n" ""))) [⟨"abc", "5"⟩]).details.get? 0).map
        Detail.passed = some true ∧
    (pythonRun (.completed 0 " 5\n" "")).success = true := by
  have hsucc : (pythonRun (.completed 0 " 5\n" "")).success = true :=
    (stdin_pass_iff_success_and_match.2.1 (.completed 0 " 5\n" "")).mpr ⟨" 5\n", "", rfl⟩
  obtain ⟨d, hd, hiff⟩ := stdin_pass_iff_success_and_match.1
    (constRS (pythonRun (.completed 0 " 5\n" ""))) [⟨"abc", "5"⟩] 0 ⟨"abc", "5"⟩ rfl
    (fun j hj => absurd hj (Nat.not_lt_zero j))
  rw [hd]
  refine ⟨?_, hsucc⟩
  have hp : d.passed = true := hiff.mpr ⟨hsucc, by rfl⟩
  simp [hp]

/-- **C4.** Every runner invocation's result classifies totally and
exclusively into the four verdict classes — compile error, (execution)
timeout, success, failure-with-nonzero-exit — counted by `classCount`;
`success` holds only when every process phase exited with status zero;
`timeout` co-occurs with `compile_error` exactly when the compile phase
itself timed out; the non-timeout non-compile-error failure class implies
a non-zero exit of the execution phase; and on a compile failure no
execution is attempted (the result is independent of the execution-phase
oracle); the interpreted runner never reports a compile error. -/
theorem runner_classification_total_exclusive :
    (∀ o : CppOracle,
      classCount (cppRun o) = 1 ∧
      ((cppRun o).success = true ↔
        ((∃ so se, o.compileOutcome = .completed 0 so se) ∧
         (∃ so se, o.execOutcome = .completed 0 so se))) ∧
      ((cppRun o).compile_error = true →
        ((cppRun o).timeout = true ↔ o.compileOutcome = .timedOut)) ∧
      ((cppRun o).success = false ∧ (cppRun o).compile_error = false ∧
          (cppRun o).timeout = false →
        ∃ rcode so se, o.execOutcome = .completed rcode so se ∧ rcode ≠ 0)) ∧
    (∀ c e1 e2 : ProcOutcome, (cppRun ⟨c, e1⟩).compile_error = true →
      cppRun ⟨c, e1⟩ = cppRun ⟨c, e2⟩) ∧
    (∀ po : ProcOutcome,
      (pythonRun po).compile_error = false ∧
      classCount (pythonRun po) = 1 ∧
      ((pythonRun po).success = true ↔ ∃ out err, po = .completed 0 out err)) := by
  refine ⟨?_, ?_, ?_⟩
  · intro o
    refine ⟨classCount_cppRun o, cppRun_success_iff o, ?_, ?_⟩
    · rcases o with ⟨c, e⟩
      cases c with
      | timedOut => intro _; simp [cppRun]
      | completed crc cso cse =>
        by_cases hc : crc = 0
        · subst hc
          simp only [cppRun, bne_self_eq_false, Bool.false_eq_true, if_false]
          cases e with
          | timedOut => intro h; simp at h
          | completed erc eso ese => intro h; simp at h
        · have hbne : (crc != 0) = true := bne_iff_ne.mpr hc
          intro _
          simp [cppRun, hbne]
    · rcases o with ⟨c, e⟩
      cases c with
      | timedOut => rintro ⟨_, _, h⟩; simp [cppRun] at h
      | completed crc cso cse =>
        by_cases hc : crc = 0
        · subst hc
          simp only [cppRun, bne_self_eq_false, Bool.false_eq_true, if_false]
          cases e with
          | timedOut => rintro ⟨_, _, h⟩; simp at h
          | completed erc eso ese =>
            rintro ⟨hs, _, _⟩
            simp only at hs
            refine ⟨erc, eso, ese, rfl, ?_⟩
            intro heq
            rw [heq] at hs
            simp at hs
        · have hbne : (crc != 0) = true := bne_iff_ne.mpr hc
          rintro ⟨_, hce, _⟩
          simp [cppRun, hbne] at hce
  · intro c e1 e2 h
    cases c with
    | timedOut => rfl
    | completed crc cso cse =>
      by_cases hc : crc = 0
      · subst hc
        simp [cppRun] at h
        cases he1 : e1 <;> rw [he1] at h <;> simp at h
      · have hbne : (crc != 0) = true := bne_iff_ne.mpr hc
        simp [cppRun, hbne]
  · intro po
    refine ⟨?_, classCount_pythonRun po, pythonRun_success_iff po⟩
    cases po <;> rfl

/-- Closed witness for C4, exercising each hypothesis-bearing clause at a
concrete oracle: a compile-timeout invocation (compile error co-occurring
with timeout, no execution attempted), and an execution exiting 2
(failure-with-nonzero-exit class). -/
theorem runner_classification_total_exclusive_witness :
    ((cppRun ⟨.timedOut, .completed 0 "x" ""⟩).timeout = true ↔
      (ProcOutcome.timedOut : ProcOutcome) = .timedOut) ∧
    cppRun ⟨.completed 1 "" "boom", .timedOut⟩ =
      cppRun ⟨.completed 1 "" "boom", .completed 0 "x" ""⟩ ∧
    classCount (cppRun ⟨.completed 0 "" "", .completed 2 "" "crash"⟩) = 1 := by
  refine ⟨?_, ?_, ?_⟩
  · exact (runner_classification_total_exclusive.1
      ⟨.timedOut, .completed 0 "x" ""⟩).2.2.1 rfl
  · exact runner_classification_total_exclusive.2.1
      (.completed 1 "" "boom") .timedOut (.completed 0 "x" "") rfl
  · exact (runner_classification_total_exclusive.1
      ⟨.completed 0 "" "", .completed 2 "" "crash"⟩).1


/-- The `ExecResult` dictionary `cpp_runner.run` returns when the compile
subprocess completes with a non-zero exit code. -/
def compileFailRes (cerr : String) : ExecResult :=
  { success := false, output := "", error := cerr, compile_error := true }

/-- A `cpp_runner.run` invocation whose compile subprocess completes with
a non-zero exit code returns the compile-error dictionary and never
consults the execution phase. -/
theorem cppRun_compile_fail (crc : Int) (cout cerr : String) (e : ProcOutcome)
    (h : crc ≠ 0) :
    cppRun ⟨.completed crc cout cerr, e⟩ = compileFailRes cerr := by
  have hb : (crc != 0) = true := bne_iff_ne.mpr h
  simp [cppRun, hb, compileFailRes]

/-- **C2.** If the structured-testing path is attempted and raises — or if
extraction itself fails — `grade_submission` discards all structured-path
work, falls through to stdin-based grading, and still returns a well-formed
`GradeReport` (`total` and `details` length both equal the number of
tests); the harness-path exception is never propagated to the caller. -/
theorem structured_failure_falls_back_to_stdin :
    (∀ (language code : String) (p : Problem) (so : StructOracle)
        (rs : Nat → ExecResult) (cs : List SCase),
      build_structured_cases p = some cs →
      ((!cs.isEmpty) && (langKeyOf language == "java" || langKeyOf language == "python")) = true →
      grade_structured (langKeyOf language) p cs so = none →
      (grade_submission language code p so rs = .ok (gradeStdin rs p.tests) ∧
       (gradeStdin rs p.tests).total = p.tests.length ∧
       (gradeStdin rs p.tests).details.length = p.tests.length)) ∧
    (∀ (language code : String) (p : Problem) (so : StructOracle)
        (rs : Nat → ExecResult),
      build_structured_cases p = none →
      (langKeyOf language == "java" || langKeyOf language == "python") = true →
      (grade_submission language code p so rs = .ok (gradeStdin rs p.tests) ∧
       (gradeStdin rs p.tests).total = p.tests.length ∧
       (gradeStdin rs p.tests).details.length = p.tests.length)) := by
  have hlookup : ∀ language : String,
      (langKeyOf language == "java" || langKeyOf language == "python") = true →
      ∃ tag, RUNNERS.lookup (langKeyOf language) = some tag := by
    intro language h
    have h2 : langKeyOf language = "java" ∨ langKeyOf language = "python" := by
      simpa using h
    rcases h2 with h' | h'
    · exact ⟨RunnerTag.java, by rw [h']; decide⟩
    · exact ⟨RunnerTag.python, by rw [h']; decide⟩
  constructor
  · intro language code p so rs cs hb hcond hgs
    have hcond2 : (langKeyOf language == "java" || langKeyOf language == "python") = true :=
      (Bool.and_eq_true _ _ ▸ hcond).2
    obtain ⟨tag, htag⟩ := hlookup language hcond2
    refine ⟨?_, rfl, stdinGo_details_length rs p.tests 0 false⟩
    simp only [grade_submission, hb, hcond, if_true, hgs, htag]
  · intro language code p so rs hb hcond
    obtain ⟨tag, htag⟩ := hlookup language hcond
    refine ⟨?_, rfl, stdinGo_details_length rs p.tests 0 false⟩
    simp only [grade_submission, hb, htag]

/-- Closed witness for C2: a supported-language submission whose structured
harness run times out (an exception inside the structured path) is graded
by the stdin path. -/
theorem structured_failure_falls_back_to_stdin_witness :
    grade_submission "python" "def mirrorScore(s): return 5"
        { id := some 2, tests := [⟨"abc", "5"⟩], sigPython := some "def mirrorScore(s):" }
        ⟨.timedOut, .timedOut, .timedOut⟩
        (constRS (pythonRun (.completed 0 "5\n" ""))) =
      .ok (gradeStdin (constRS (pythonRun (.completed 0 "5\n" "")))
        [⟨"abc", "5"⟩]) :=
  (structured_failure_falls_back_to_stdin.1 "python" "def mirrorScore(s): return 5"
    { id := some 2, tests := [⟨"abc", "5"⟩], sigPython := some "def mirrorScore(s):" }
    ⟨.timedOut, .timedOut, .timedOut⟩
    (constRS (pythonRun (.completed 0 "5\n" "")))
    [⟨[.str "abc"], .int 5⟩] rfl rfl rfl).1

/-- **C5 (amended).** For a compiled-language submission whose source fails
to compile, the returned report has `compile_error = true`, one detail per
test with none passed, no execution is attempted (the report is
independent of the execution-phase oracle) — but only the *first* case's
detail carries the compiler's diagnostic text; every later case's detail
carries the fixed reason `"Compilation failed"` instead. -/
theorem compile_failure_report_amended
    (co : Nat → CppOracle) (tests : List TestCase) (crc : Int) (cout cerr : String)
    (hcrc : crc ≠ 0)
    (hco : ∀ i, (co i).compileOutcome = .completed crc cout cerr)
    (hne : tests ≠ []) :
    (gradeStdin (fun i => cppRun (co i)) tests).compile_error = true ∧
    (gradeStdin (fun i => cppRun (co i)) tests).total = tests.length ∧
    (gradeStdin (fun i => cppRun (co i)) tests).details.length = tests.length ∧
    (∀ d ∈ (gradeStdin (fun i => cppRun (co i)) tests).details, d.passed = false) ∧
    ((gradeStdin (fun i => cppRun (co i)) tests).details.head?.map Detail.error =
      some cerr) ∧
    (∀ i d, 0 < i →
      (gradeStdin (fun i => cppRun (co i)) tests).details.get? i = some d →
      d.error = "Compilation failed") ∧
    (∀ co' : Nat → CppOracle,
      (∀ i, (co' i).compileOutcome = (co i).compileOutcome) →
      gradeStdin (fun i => cppRun (co' i)) tests =
        gradeStdin (fun i => cppRun (co i)) tests) := by
  have hfix : ∀ (c : Nat → CppOracle),
      (∀ i, (c i).compileOutcome = .completed crc cout cerr) →
      (fun i => cppRun (c i)) = (fun _ => compileFailRes cerr) := by
    intro c hc
    funext i
    have h1 := hc i
    rcases h2 : c i with ⟨cc, ce⟩
    rw [h2] at h1
    simp only at h1
    subst h1
    exact cppRun_compile_fail crc cout cerr ce hcrc
  rw [hfix co hco]
  rcases tests with _ | ⟨t, rest⟩
  · exact absurd rfl hne
  · have hexp : gradeStdin (fun _ => compileFailRes cerr) (t :: rest) =
        { passed := 0, total := rest.length + 1,
          details := ranDetail (compileFailRes cerr) t :: rest.map skipDetail,
          compile_error := true } := by
      simp only [gradeStdin, stdinGo, compileFailRes, Bool.false_eq_true, if_false,
        stdinGo_skipAll, List.length_cons]
      simp [ranDetail]
    rw [hexp]
    refine ⟨rfl, by simp, by simp, ?_, rfl, ?_, ?_⟩
    · intro d hd
      rcases List.mem_cons.mp hd with h | h
      · subst h; rfl
      · obtain ⟨t', _, rfl⟩ := List.mem_map.mp h
        rfl
    · intro i d hi hget
      rcases i with _ | n
      · exact absurd hi (by omega)
      · rw [List.get?_cons_succ] at hget
        have hd' : d ∈ rest.map skipDetail := List.get?_mem hget
        obtain ⟨t', _, rfl⟩ := List.mem_map.mp hd'
        rfl
    · intro co' hco'
      have : ∀ i, (co' i).compileOutcome = .completed crc cout cerr := by
        intro i
        rw [hco' i, hco i]
      rw [hfix co' this, hexp]

/-- Counterexample for C5 as stated: with two tests and compiler
diagnostic `"main.cpp:1: error"`, the second case's detail carries the
fixed string `"Compilation failed"`, not the compiler's diagnostic. -/
theorem compile_failure_report_cex :
    (gradeStdin (constRS (cppRun ⟨.completed 1 "" "main.cpp:1: error", .timedOut⟩))
        [⟨"1", "1"⟩, ⟨"2", "2"⟩]).details.map Detail.error =
      ["main.cpp:1: error", "Compilation failed"] ∧
    "Compilation failed" ≠ "main.cpp:1: error" := ⟨rfl, by decide⟩

/-- Closed witness for C5 (amended) on a concrete two-test grading. -/
theorem compile_failure_report_amended_witness :
    (gradeStdin (constRS (cppRun ⟨.completed 1 "" "diag", .timedOut⟩))
        [⟨"1", "1"⟩, ⟨"2", "2"⟩]).compile_error = true ∧
    (gradeStdin (constRS (cppRun ⟨.completed 1 "" "diag", .timedOut⟩))
        [⟨"1", "1"⟩, ⟨"2", "2"⟩]).details.head?.map Detail.error = some "diag" := by
  have h := compile_failure_report_amended
    (constCO ⟨.completed 1 "" "diag", .timedOut⟩)
    [⟨"1", "1"⟩, ⟨"2", "2"⟩] 1 "" "diag" (by decide)
    (fun _ => rfl) (by simp)
  exact ⟨h.1, h.2.2.2.2.1⟩

/-- **C6 (amended).** Within one stdin-mode grading of a compiled-language
submission the candidate's code is *recompiled for every executed test
case* (each `cpp_runner.run` call launches one fresh `g++` compile; no
binary is reused): when no case reports a compile error the number of
runner invocations — hence compilations — equals the number of tests, and
after a first-case compile failure exactly one invocation (one
compilation) happens. -/
theorem per_case_recompilation_amended
    (co : Nat → CppOracle) (tests : List TestCase) :
    ((∀ i, (cppRun (co i)).compile_error = false) →
      stdinRunnerCalls (fun i => cppRun (co i)) tests 0 false = tests.length) ∧
    (tests ≠ [] → (cppRun (co 0)).compile_error = true →
      stdinRunnerCalls (fun i => cppRun (co i)) tests 0 false = 1) := by
  constructor
  · intro h
    exact stdinRunnerCalls_noFail _ h tests 0
  · intro hne hce
    rcases tests with _ | ⟨t, rest⟩
    · exact absurd rfl hne
    · simp only [stdinRunnerCalls, Bool.false_eq_true, if_false]
      rw [show ((fun i => cppRun (co i)) 0).compile_error = true from hce,
        stdinRunnerCalls_skipAll]

/-- Counterexample for C6 as stated: a two-test grading whose compilations
succeed invokes the compiling runner twice — the code is not compiled at
most once per batch. -/
theorem per_case_recompilation_cex :
    stdinRunnerCalls (constRS (cppRun ⟨.completed 0 "" "", .completed 0 "1" ""⟩))
      [⟨"1", "1"⟩, ⟨"2", "2"⟩] 0 false = 2 ∧ ¬(2 ≤ 1) := ⟨rfl, by decide⟩

/-- Closed witness for C6 (amended) on concrete two-test gradings: one
with all compiles succeeding (two invocations) and one failing at the
first case (a single invocation). -/
theorem per_case_recompilation_amended_witness :
    stdinRunnerCalls (constRS (cppRun ⟨.completed 0 "" "", .completed 0 "1" ""⟩))
      [⟨"1", "1"⟩, ⟨"2", "2"⟩] 0 false = 2 ∧
    stdinRunnerCalls (constRS (cppRun ⟨.completed 1 "" "diag", .timedOut⟩))
      [⟨"1", "1"⟩, ⟨"2", "2"⟩] 0 false = 1 := by
  constructor
  · exact (per_case_recompilation_amended
      (constCO ⟨.completed 0 "" "", .completed 0 "1" ""⟩)
      [⟨"1", "1"⟩, ⟨"2", "2"⟩]).1 (fun _ => rfl)
  · exact (per_case_recompilation_amended
      (constCO ⟨.completed 1 "" "diag", .timedOut⟩)
      [⟨"1", "1"⟩, ⟨"2", "2"⟩]).2 (by simp) rfl


/-- **C8 (amended).** The Java literal renderer follows the rendering
rules with one amendment forced by Python's `bool <: int` subtyping:
strings are quoted escaping only backslash and the quote character;
booleans render as `true`/`false`; integer sequences, string sequences and
2-D integer/string sequences have their dedicated literal shapes; empty
sequences render as `new ArrayList<>()`, never null; any remaining unknown
shape renders as `null` — *except* that sequences whose elements are all
ints-or-bools (including inside 2-D sequences) classify as integer
sequences and render each element via Python's `str` (booleans as
`True`/`False`).  Stated as: `java_literal` coincides with the spec-side
classify-then-render function `javaLiteralSpec`. -/
theorem java_literal_rules_amended : ∀ v : PyVal, java_literal v = javaLiteralSpec v := by
  intro v
  cases v with
  | str s =>
    simpa [java_literal, javaLiteralSpec, classifyJavaShape, renderJavaShape]
      using strLitJ_eq_strLitSpec s
  | bool b => rfl
  | int n => rfl
  | list l =>
    simp only [java_literal, javaLiteralSpec, classifyJavaShape]
    by_cases h0 : l.isEmpty
    · simp [h0, renderJavaShape]
    · by_cases h1 : l.all isIntInst
      · simp [h0, h1, renderJavaShape]
      · by_cases h2 : l.all isStrInst
        · simp [h0, h1, h2, renderJavaShape, java_list_str, strLitJ_eq_strLitSpec]
        · by_cases h3 : l.all isIntListInst
          · simp [h0, h1, h2, h3, renderJavaShape]
          · by_cases h4 : l.all isStrListInst
            · simp [h0, h1, h2, h3, h4, renderJavaShape, strLitJ_eq_strLitSpec]
            · simp [h0, h1, h2, h3, h4, renderJavaShape]

/-- Counterexample for C8 as stated: `[True]` is none of the enumerated
shapes (it is a boolean sequence), so the claim requires the null literal,
but `java_literal` renders it through the integer-sequence branch — Python
`bool` passes `isinstance(x, int)` — producing the (non-Java) literal
`Arrays.asList(True)` instead of `null`. -/
theorem java_literal_rules_cex :
    java_literal (.list [.bool true]) = "Arrays.asList(True)" ∧
    java_literal (.list [.bool true]) ≠ "null" := ⟨rfl, by decide⟩

/-- The number of harness stdout lines that enter the `RESULT|` line
protocol parser. -/
def resultLineCount (stdout : String) : Nat :=
  ((pySplitlines stdout).filter (fun l => pyStartsWith l "RESULT|")).length

/-- **C1 (amended).** `total` always equals the number of the problem's
tests.  In stdin mode, `details` has exactly one entry per test, ordered
to match the input test order.  In structured Python mode, `details` has
one entry per `RESULT|`-prefixed line of the harness stdout — equal to
`total` exactly when that stdout carries one protocol line per case, which
the generated harness produces when the solution imports cleanly and the
candidate prints no `RESULT|`-prefixed lines of its own (an import failure
yields an *empty* `details` list).  A Java batch compile failure yields
the single synthetic failing detail carrying the compiler diagnostic. -/
theorem report_details_shape_amended :
    (∀ (rs : Nat → ExecResult) (tests : List TestCase),
      (gradeStdin rs tests).total = tests.length ∧
      (gradeStdin rs tests).details.length = tests.length ∧
      (∀ i t, tests.get? i = some t →
        ∃ d, (gradeStdin rs tests).details.get? i = some d ∧
          d.input = t.input ∧ d.expected = pyStrip t.output)) ∧
    (∀ (rc : Int) (out err : String) (cases : List SCase) (r : Report),
      grade_structured_python (.completed rc out err) cases = some r →
      r.total = cases.length ∧ r.details.length = resultLineCount out) ∧
    (∀ (crc : Int) (cout cerr : String) (ro : ProcOutcome) (cases : List SCase)
        (r : Report),
      crc ≠ 0 →
      grade_structured_java (.completed crc cout cerr) ro cases = some r →
      r.total = cases.length ∧
      r.details = [{ passed := false, error := cerr, compile_error := true }] ∧
      r.compile_error = true) := by
  refine ⟨?_, ?_, ?_⟩
  · intro rs tests
    exact ⟨rfl, stdinGo_details_length rs tests 0 false,
      fun i t h => stdinGo_get_align rs tests 0 false i t h⟩
  · intro rc out err cases r h
    simp only [grade_structured_python] at h
    cases hp : parse_result_lines_py (pySplitlines out) with
    | none => rw [hp] at h; exact absurd h (by simp)
    | some dsp =>
      obtain ⟨ds, pn⟩ := dsp
      rw [hp] at h
      simp only [Option.some.injEq] at h
      rw [← h]
      exact ⟨rfl, parse_result_lines_py_length _ _ _ hp⟩
  · intro crc cout cerr ro cases r hcrc h
    have hb : (crc != 0) = true := bne_iff_ne.mpr hcrc
    simp only [grade_structured_java, hb, if_true, Option.some.injEq] at h
    rw [← h]
    exact ⟨rfl, rfl, rfl⟩

/-- Counterexample for C1 as stated: a structured Python grading of a
one-test problem in which the candidate's own function prints a spoofed
`RESULT|0|PASS` line before returning, so the harness stdout carries two
protocol lines; the returned `GradeReport` has two `details` entries (and
`passed = 2`) against `total = 1`, with no batch compile failure — the
claimed equality and its single-synthetic-detail exception both fail. -/
theorem report_details_shape_cex :
    grade_submission "python"
        "def mirrorScore(s):\n    print(\"RESULT|0|PASS\")\n    return 5"
        { id := some 2, tests := [⟨"abc", "5"⟩], sigPython := some "def mirrorScore(s):" }
        ⟨.completed 0 "RESULT|0|PASS\nRESULT|0|PASS" "", .timedOut, .timedOut⟩
        (constRS (pythonRun (.completed 0 "5" ""))) =
      .ok { passed := 2, total := 1,
            details := [{ passed := true, error := "" }, { passed := true, error := "" }],
            compile_error := false } ∧
    (2 : Nat) ≠ 1 := ⟨rfl, by decide⟩

/-- Closed witness for C1 (amended): the structured-Python clause at a
clean one-line harness output, and the Java compile-failure clause at a
failing `javac` run. -/
theorem report_details_shape_amended_witness :
    ({ passed := 1, total := 1, details := [{ passed := true, error := "" }],
       compile_error := false } : Report).details.length =
      resultLineCount "RESULT|0|PASS" ∧
    ({ passed := 0, total := 1,
       details := [{ passed := false, error := "ce", compile_error := true }],
       compile_error := true } : Report).details =
      [{ passed := false, error := "ce", compile_error := true }] := by
  constructor
  · exact (report_details_shape_amended.2.1 0 "RESULT|0|PASS" ""
      [⟨[.int 1], .int 1⟩] _ rfl).2
  · exact (report_details_shape_amended.2.2 2 "" "ce" .timedOut
      [⟨[.int 1], .int 1⟩] _ (by decide) rfl).2.1

end CCB
